import Mathlib

/-!
Shallow embedding of `src/await.py`: a scanner that walks a directory tree,
tokenizes every `.py` file with the CPython `tokenize` module, prints one
report line per NAME token spelled `await` or `async` (and one ERROR line
per file whose tokenization raises `SyntaxError` or `UnicodeDecodeError`),
and finally prints three summary counters.

The directory walk and the tokenizer are external facilities (`os.walk`,
`tokenize.tokenize`); the embedding abstracts their *results*: a run input
is the list of directory entries the walk produced, each entry carrying the
outcome that `list(tokenize.tokenize(f.readline))` has on the bytes of
that file (either the full token list or the exception that escaped).
-/

namespace AwaitPep

/-- The numeric code `token.NAME` of the CPython `token` module. -/
def NAME : Nat := 1

/-- One token as produced by `tokenize.tokenize`: its `type` code, its
exact spelling `string`, and its `start` position pair. -/
structure TokenInfo where
  type : Nat
  string : String
  start : Nat × Nat
  deriving Repr, DecidableEq

/-- The two exception classes caught by the per-file `except` clause in
`src/await.py` line 28, each carrying its `str(ex)` rendering. -/
inductive TokenizeError where
  | syntaxError (msg : String)
  | unicodeDecodeError (msg : String)
  deriving Repr, DecidableEq

/-- `str(ex)` for a caught tokenization exception. -/
def TokenizeError.message : TokenizeError → String
  | .syntaxError m => m
  | .unicodeDecodeError m => m

/-- One file entry yielded by the `os.walk` loop: the entry `name`, the
directory `root` it was found in, and the outcome of
`list(tokenize.tokenize(f.readline))` on its bytes. -/
structure SourceFile where
  name : String
  root : String
  tokens : Except TokenizeError (List TokenInfo)
  deriving Repr

/-- `os.path.join(root, name)` for the plain relative names the walk
yields. -/
def SourceFile.filename (f : SourceFile) : String :=
  f.root ++ "/" ++ f.name

/-- Python `str.endswith`: a case-sensitive exact suffix match, embedded
as a suffix test on the character sequences of the two strings. -/
def endswith (s suffix : String) : Bool :=
  suffix.data.isSuffixOf s.data

/-- The three counters `c_error, c_async, c_await` of `src/await.py`
line 16. -/
structure Tally where
  c_error : Nat
  c_async : Nat
  c_await : Nat
  deriving Repr, DecidableEq

/-- Python `repr` of the `tok.start` pair, e.g. `(3, 4)`. -/
def renderStart (p : Nat × Nat) : String :=
  "(" ++ toString p.1 ++ ", " ++ toString p.2 ++ ")"

/-- The report line printed for a matching token
(`src/await.py` lines 37-38). -/
def matchLine (filename : String) (tok : TokenInfo) : String :=
  tok.string ++ "\t" ++ filename ++ ": " ++ renderStart tok.start

/-- The report line printed for a failed file (`src/await.py` line 29):
a print of the ERROR marker, the joined filename and the exception text,
separated by single spaces. -/
def errorLine (filename : String) (ex : TokenizeError) : String :=
  "ERROR " ++ filename ++ " " ++ ex.message

/-- The body of the token loop (`src/await.py` lines 33-44): if the token
has type `token.NAME` and its string is `await` or `async`, print the match
line and bump the matching counter. State is the list of printed report
lines so far together with the tally. -/
def scanToken (filename : String) (st : List String × Tally)
    (tok : TokenInfo) : List String × Tally :=
  if tok.type == NAME && (tok.string == "await" || tok.string == "async") then
    let out := st.1 ++ [matchLine filename tok]
    let t := st.2
    let t := if tok.string == "await" then
      { t with c_await := t.c_await + 1 } else t
    let t := if tok.string == "async" then
      { t with c_async := t.c_async + 1 } else t
    (out, t)
  else
    st

/-- Processing of one opened file (`src/await.py` lines 24-44): on a
tokenization exception print the ERROR line and bump `c_error`, otherwise
run the token loop over the materialized token list. -/
def scanFile (st : List String × Tally) (f : SourceFile) :
    List String × Tally :=
  match f.tokens with
  | .error ex =>
      (st.1 ++ [errorLine f.filename ex],
       { st.2 with c_error := st.2.c_error + 1 })
  | .ok toks => toks.foldl (scanToken f.filename) st

/-- One iteration of the inner `for name in files` loop
(`src/await.py` lines 19-21): entries whose name does not end in `.py` are
skipped by `continue`. -/
def visitFile (st : List String × Tally) (f : SourceFile) :
    List String × Tally :=
  if endswith f.name ".py" then scanFile st f else st

/-- The whole walk loop of `src/await.py` lines 16-44, starting from the
zeroed counters of line 16 and an empty report body. -/
def scanRun (files : List SourceFile) : List String × Tally :=
  files.foldl visitFile ([], ⟨0, 0, 0⟩)

/-- The complete line-by-line output of a run (`src/await.py` lines 13-49):
the directory echo, a blank line, the report body, a blank line, and the
three labelled summary lines. `print` with several arguments separates
them with one space, so each label keeps its trailing space and gains one
more. -/
def runOutput (dir : String) (files : List SourceFile) : List String :=
  let r := scanRun files
  ["Directory:  " ++ dir, ""]
    ++ r.1
    ++ ["",
        "# of errors:  " ++ toString r.2.c_error,
        "# of `await`:  " ++ toString r.2.c_await,
        "# of `async`:  " ++ toString r.2.c_async]

/-! Characterizations used by the proofs: each processing step appends a
computable list of lines and adds a computable delta to the tally. -/

/-- Componentwise addition of tallies. -/
def Tally.add (a b : Tally) : Tally :=
  ⟨a.c_error + b.c_error, a.c_async + b.c_async, a.c_await + b.c_await⟩

/-- The token filter of `src/await.py` lines 34-35. -/
def isMatchTok (tok : TokenInfo) : Bool :=
  tok.type == NAME && (tok.string == "await" || tok.string == "async")

/-- Lines printed for one token. -/
def tokLines (filename : String) (tok : TokenInfo) : List String :=
  if isMatchTok tok then [matchLine filename tok] else []

/-- Tally contribution of one token. -/
def tokDelta (tok : TokenInfo) : Tally :=
  ⟨0,
   if tok.type == NAME && tok.string == "async" then 1 else 0,
   if tok.type == NAME && tok.string == "await" then 1 else 0⟩

/-- Summed tally contribution of a token list. -/
def tokensDelta : List TokenInfo → Tally
  | [] => ⟨0, 0, 0⟩
  | tok :: toks => Tally.add (tokDelta tok) (tokensDelta toks)

/-- Lines printed while processing one file. -/
def fileLines (f : SourceFile) : List String :=
  match f.tokens with
  | .error ex => [errorLine f.filename ex]
  | .ok toks => (toks.filter isMatchTok).map (matchLine f.filename)

/-- Tally contribution of one file. -/
def fileDelta (f : SourceFile) : Tally :=
  match f.tokens with
  | .error _ => ⟨1, 0, 0⟩
  | .ok toks => tokensDelta toks

/-- Lines printed for one walk entry (nothing unless the name ends in
`.py`). -/
def visitLines (f : SourceFile) : List String :=
  if endswith f.name ".py" then fileLines f else []

/-- Tally contribution of one walk entry. -/
def visitDelta (f : SourceFile) : Tally :=
  if endswith f.name ".py" then fileDelta f else ⟨0, 0, 0⟩

/-- Summed tally contribution of a run. -/
def runDelta : List SourceFile → Tally
  | [] => ⟨0, 0, 0⟩
  | f :: fs => Tally.add (visitDelta f) (runDelta fs)

theorem Tally.add_zero (a : Tally) : Tally.add a ⟨0, 0, 0⟩ = a := by
  simp [Tally.add]

theorem Tally.zero_add (a : Tally) : Tally.add ⟨0, 0, 0⟩ a = a := by
  simp [Tally.add]

theorem Tally.add_assoc (a b c : Tally) :
    Tally.add (Tally.add a b) c = Tally.add a (Tally.add b c) := by
  simp [Tally.add, Nat.add_assoc]

theorem scanToken_eq (filename : String) (st : List String × Tally)
    (tok : TokenInfo) :
    scanToken filename st tok =
      (st.1 ++ tokLines filename tok, Tally.add st.2 (tokDelta tok)) := by
  unfold scanToken tokLines tokDelta isMatchTok
  by_cases hn : tok.type == NAME
  · by_cases hw : tok.string == "await"
    · have hs : (tok.string == "async") = false := by
        simp only [beq_iff_eq] at hw ⊢; simp [hw]
      simp [hn, hw, hs, Tally.add]
    · by_cases hs : tok.string == "async"
      · simp [hn, hw, hs, Tally.add]
      · simp [hn, hw, hs, Tally.add_zero]
  · simp [hn, Tally.add_zero]

theorem foldl_scanToken (filename : String) (toks : List TokenInfo) :
    ∀ st : List String × Tally,
      toks.foldl (scanToken filename) st =
        (st.1 ++ (toks.filter isMatchTok).map (matchLine filename),
         Tally.add st.2 (tokensDelta toks)) := by
  induction toks with
  | nil => intro st; simp [tokensDelta, Tally.add_zero]
  | cons tok toks ih =>
      intro st
      rw [List.foldl_cons, scanToken_eq, ih]
      by_cases h : isMatchTok tok
      · simp [tokensDelta, tokLines, h, Tally.add_assoc, List.filter_cons]
      · have hd : tokDelta tok = ⟨0, 0, 0⟩ := by
          unfold tokDelta
          unfold isMatchTok at h
          by_cases hn : tok.type == NAME
          · simp [hn] at h
            push_neg at h
            simp [hn, h.1, h.2]
          · simp [hn]
        simp [tokensDelta, tokLines, h, hd, Tally.zero_add, Tally.add_zero,
          List.filter_cons]

theorem scanFile_eq (st : List String × Tally) (f : SourceFile) :
    scanFile st f = (st.1 ++ fileLines f, Tally.add st.2 (fileDelta f)) := by
  cases hf : f.tokens with
  | error ex => simp [scanFile, fileLines, fileDelta, hf, Tally.add]
  | ok toks => simp [scanFile, fileLines, fileDelta, hf, foldl_scanToken]

theorem visitFile_eq (st : List String × Tally) (f : SourceFile) :
    visitFile st f = (st.1 ++ visitLines f, Tally.add st.2 (visitDelta f)) := by
  unfold visitFile visitLines visitDelta
  by_cases h : endswith f.name ".py"
  · simp [h, scanFile_eq]
  · simp [h, Tally.add_zero, Prod.ext_iff]

theorem foldl_visitFile (files : List SourceFile) :
    ∀ st : List String × Tally,
      files.foldl visitFile st =
        (st.1 ++ files.flatMap visitLines, Tally.add st.2 (runDelta files)) := by
  induction files with
  | nil => intro st; simp [runDelta, Tally.add_zero]
  | cons f fs ih =>
      intro st
      rw [List.foldl_cons, visitFile_eq, ih]
      simp [runDelta, Tally.add_assoc]

/-- The run decomposes into a flat list of per-entry report lines and a sum
of per-entry tally deltas. -/
theorem scanRun_eq (files : List SourceFile) :
    scanRun files = (files.flatMap visitLines, runDelta files) := by
  unfold scanRun
  rw [foldl_visitFile]
  simp [Tally.zero_add]

/-- Number of NAME tokens spelled exactly `await`. -/
def countAwait (toks : List TokenInfo) : Nat :=
  (toks.filter (fun tok => tok.type == NAME && tok.string == "await")).length

/-- Number of NAME tokens spelled exactly `async`. -/
def countAsync (toks : List TokenInfo) : Nat :=
  (toks.filter (fun tok => tok.type == NAME && tok.string == "async")).length

theorem tokDelta_of_not_match (tok : TokenInfo) (h : isMatchTok tok = false) :
    tokDelta tok = ⟨0, 0, 0⟩ := by
  unfold tokDelta
  unfold isMatchTok at h
  by_cases hn : tok.type == NAME
  · simp [hn] at h
    push_neg at h
    simp [hn, h.1, h.2]
  · simp [hn]

theorem tokensDelta_c_error (toks : List TokenInfo) :
    (tokensDelta toks).c_error = 0 := by
  induction toks with
  | nil => rfl
  | cons tok toks ih => simp [tokensDelta, Tally.add, tokDelta, ih]

theorem tokensDelta_c_await (toks : List TokenInfo) :
    (tokensDelta toks).c_await = countAwait toks := by
  induction toks with
  | nil => rfl
  | cons tok toks ih =>
      simp only [tokensDelta, Tally.add, tokDelta, countAwait, List.filter_cons]
      by_cases h : (tok.type == NAME && tok.string == "await") = true
      · simp [h, ih, countAwait]
        omega
      · simp [h, ih, countAwait]

theorem tokensDelta_c_async (toks : List TokenInfo) :
    (tokensDelta toks).c_async = countAsync toks := by
  induction toks with
  | nil => rfl
  | cons tok toks ih =>
      simp only [tokensDelta, Tally.add, tokDelta, countAsync, List.filter_cons]
      by_cases h : (tok.type == NAME && tok.string == "async") = true
      · simp [h, ih, countAsync]
        omega
      · simp [h, ih, countAsync]

/-- Claim C1: for every successfully tokenized file, processing that file
appends exactly one match line per token whose kind is NAME and whose text
is exactly `await` or `async` (in token order), adds the number of NAME
tokens spelled `await` to the await counter and the number spelled `async`
to the async counter, leaves the error counter unchanged; and a token of
any other kind (for example a string literal containing the substring
`await`) leaves the state untouched. -/
theorem matches_and_counts_of_tokenized_file (f : SourceFile)
    (toks : List TokenInfo) (st : List String × Tally)
    (h : f.tokens = Except.ok toks) :
    (scanFile st f).1 =
        st.1 ++ (toks.filter (fun tok =>
          tok.type == NAME &&
            (tok.string == "await" || tok.string == "async"))).map
          (matchLine f.filename) ∧
    (scanFile st f).2.c_await = st.2.c_await + countAwait toks ∧
    (scanFile st f).2.c_async = st.2.c_async + countAsync toks ∧
    (scanFile st f).2.c_error = st.2.c_error ∧
    (∀ (tok : TokenInfo) (st2 : List String × Tally), tok.type ≠ NAME →
      scanToken f.filename st2 tok = st2) := by
  rw [scanFile_eq]
  refine ⟨?_, ?_, ?_, ?_, ?_⟩
  · simp only [fileLines, h]
    rfl
  · simp [fileDelta, h, Tally.add, tokensDelta_c_await]
  · simp [fileDelta, h, Tally.add, tokensDelta_c_async]
  · simp [fileDelta, h, Tally.add, tokensDelta_c_error]
  · intro tok st2 hn
    have hm : isMatchTok tok = false := by
      unfold isMatchTok
      simp [hn]
    rw [scanToken_eq, tokDelta_of_not_match tok hm]
    simp [tokLines, hm, Tally.add_zero]

/-- Witness for C1: a file with a NAME `await` token at (3, 4), an
unrelated NAME token, and a string-literal token (type 3) spelled `await`
yields one match line and an await count of 1. -/
theorem matches_and_counts_of_tokenized_file_witness :
    (scanFile ([], ⟨0, 0, 0⟩)
        ⟨"a.py", "/r", Except.ok
          [⟨1, "await", (3, 4)⟩, ⟨1, "x", (1, 0)⟩, ⟨3, "await", (2, 0)⟩]⟩).1 =
      ["await\t/r/a.py: (3, 4)"] ∧
    (scanFile ([], ⟨0, 0, 0⟩)
        ⟨"a.py", "/r", Except.ok
          [⟨1, "await", (3, 4)⟩, ⟨1, "x", (1, 0)⟩, ⟨3, "await", (2, 0)⟩]⟩).2.c_await = 1 := by
  have h := matches_and_counts_of_tokenized_file
    ⟨"a.py", "/r", Except.ok
      [⟨1, "await", (3, 4)⟩, ⟨1, "x", (1, 0)⟩, ⟨3, "await", (2, 0)⟩]⟩
    [⟨1, "await", (3, 4)⟩, ⟨1, "x", (1, 0)⟩, ⟨3, "await", (2, 0)⟩]
    ([], ⟨0, 0, 0⟩) rfl
  refine ⟨?_, ?_⟩
  · rw [h.1]
    rfl
  · rw [h.2.1]
    rfl

/-- Claim C2: every scanned file yields either zero-or-more match lines
(when tokenization succeeds) or exactly one ERROR line together with a
single error-counter increment (when it fails), never both and never
neither; on failure no match line is emitted for that file. -/
theorem matches_xor_failure_per_file (st : List String × Tally)
    (f : SourceFile) :
    ((∃ ex, f.tokens = Except.error ex ∧
        scanFile st f =
          (st.1 ++ [errorLine f.filename ex],
           { st.2 with c_error := st.2.c_error + 1 })) ∨
     (∃ toks, f.tokens = Except.ok toks ∧
        (scanFile st f).1 =
          st.1 ++ (toks.filter isMatchTok).map (matchLine f.filename) ∧
        (scanFile st f).2.c_error = st.2.c_error)) ∧
    ¬((∃ ex, f.tokens = Except.error ex) ∧
      (∃ toks, f.tokens = Except.ok toks)) := by
  constructor
  · cases hf : f.tokens with
    | error ex =>
        left
        exact ⟨ex, rfl, by simp [scanFile, hf]⟩
    | ok toks =>
        right
        refine ⟨toks, rfl, ?_, ?_⟩
        · rw [scanFile_eq]
          simp [fileLines, hf]
        · rw [scanFile_eq]
          simp [fileDelta, hf, Tally.add, tokensDelta_c_error]
  · rintro ⟨⟨ex, hex⟩, ⟨toks, htoks⟩⟩
    rw [hex] at htoks
    exact Except.noConfusion htoks

/-- Witness for C2 at a concrete failing file: the failure branch holds
with exactly one ERROR line and one error increment, and the two branches
exclude each other. -/
theorem matches_xor_failure_per_file_witness :
    ((∃ ex,
        (⟨"b.py", "/r", Except.error (TokenizeError.syntaxError "bad")⟩ :
            SourceFile).tokens = Except.error ex ∧
        scanFile ([], ⟨0, 0, 0⟩)
            ⟨"b.py", "/r", Except.error (TokenizeError.syntaxError "bad")⟩ =
          ([] ++ [errorLine
            (⟨"b.py", "/r", Except.error (TokenizeError.syntaxError "bad")⟩ :
              SourceFile).filename ex],
           { (⟨0, 0, 0⟩ : Tally) with c_error := (⟨0, 0, 0⟩ : Tally).c_error + 1 })) ∨
     (∃ toks,
        (⟨"b.py", "/r", Except.error (TokenizeError.syntaxError "bad")⟩ :
            SourceFile).tokens = Except.ok toks ∧
        (scanFile ([], ⟨0, 0, 0⟩)
            ⟨"b.py", "/r", Except.error (TokenizeError.syntaxError "bad")⟩).1 =
          [] ++ (toks.filter isMatchTok).map (matchLine
            (⟨"b.py", "/r", Except.error (TokenizeError.syntaxError "bad")⟩ :
              SourceFile).filename) ∧
        (scanFile ([], ⟨0, 0, 0⟩)
            ⟨"b.py", "/r", Except.error (TokenizeError.syntaxError "bad")⟩).2.c_error =
          (⟨0, 0, 0⟩ : Tally).c_error)) ∧
    ¬((∃ ex,
        (⟨"b.py", "/r", Except.error (TokenizeError.syntaxError "bad")⟩ :
            SourceFile).tokens = Except.error ex) ∧
      (∃ toks,
        (⟨"b.py", "/r", Except.error (TokenizeError.syntaxError "bad")⟩ :
            SourceFile).tokens = Except.ok toks)) :=
  matches_xor_failure_per_file ([], ⟨0, 0, 0⟩)
    ⟨"b.py", "/r", Except.error (TokenizeError.syntaxError "bad")⟩

theorem tokensDelta_of_no_match (toks : List TokenInfo)
    (h : toks.filter isMatchTok = []) : tokensDelta toks = ⟨0, 0, 0⟩ := by
  induction toks with
  | nil => rfl
  | cons tok toks ih =>
      rw [List.filter_cons] at h
      by_cases hm : isMatchTok tok
      · simp [hm] at h
      · simp only [hm, Bool.false_eq_true, if_false] at h
        simp [tokensDelta, tokDelta_of_not_match tok (by simpa using hm),
          ih h, Tally.zero_add]

theorem runDelta_append (l1 l2 : List SourceFile) :
    runDelta (l1 ++ l2) = Tally.add (runDelta l1) (runDelta l2) := by
  induction l1 with
  | nil => simp [runDelta, Tally.zero_add]
  | cons f fs ih => simp [runDelta, ih, Tally.add_assoc]

/-- Claim C3: a file whose tokenization fails contributes exactly one ERROR
line and one error-count increment, and the run goes on to process every
later file exactly as it would have: the report and the counters of the
whole run decompose around the failing file. -/
theorem failure_recorded_and_run_continues (pre post : List SourceFile)
    (f : SourceFile) (ex : TokenizeError)
    (hpy : endswith f.name ".py" = true)
    (herr : f.tokens = Except.error ex) :
    (scanRun (pre ++ f :: post)).1 =
      (scanRun pre).1 ++ [errorLine f.filename ex] ++ (scanRun post).1 ∧
    (scanRun (pre ++ f :: post)).2.c_error =
      (scanRun pre).2.c_error + 1 + (scanRun post).2.c_error ∧
    (scanRun (pre ++ f :: post)).2.c_await =
      (scanRun pre).2.c_await + (scanRun post).2.c_await ∧
    (scanRun (pre ++ f :: post)).2.c_async =
      (scanRun pre).2.c_async + (scanRun post).2.c_async := by
  have hlines : visitLines f = [errorLine f.filename ex] := by
    simp [visitLines, hpy, fileLines, herr]
  have hdelta : visitDelta f = ⟨1, 0, 0⟩ := by
    simp [visitDelta, hpy, fileDelta, herr]
  have hsplit : pre ++ f :: post = pre ++ [f] ++ post := by simp
  refine ⟨?_, ?_, ?_, ?_⟩
  · rw [hsplit]
    simp [scanRun_eq, hlines]
  · rw [hsplit]
    simp [scanRun_eq, runDelta_append, runDelta, hdelta, Tally.add,
      Tally.add_zero]
    omega
  · rw [hsplit]
    simp [scanRun_eq, runDelta_append, runDelta, hdelta, Tally.add,
      Tally.add_zero]
  · rw [hsplit]
    simp [scanRun_eq, runDelta_append, runDelta, hdelta, Tally.add,
      Tally.add_zero]

/-- Witness for C3: a failing file between two successfully scanned files;
the error line lands between their match lines and the counters add up. -/
theorem failure_recorded_and_run_continues_witness :
    (scanRun
        [⟨"a.py", "/r", Except.ok [⟨1, "await", (1, 0)⟩]⟩,
         ⟨"b.py", "/r", Except.error (TokenizeError.syntaxError "bad")⟩,
         ⟨"c.py", "/r", Except.ok [⟨1, "async", (2, 0)⟩]⟩]).1 =
      (scanRun [⟨"a.py", "/r", Except.ok [⟨1, "await", (1, 0)⟩]⟩]).1 ++
        ["ERROR /r/b.py bad"] ++
        (scanRun [⟨"c.py", "/r", Except.ok [⟨1, "async", (2, 0)⟩]⟩]).1 := by
  have h := failure_recorded_and_run_continues
    [⟨"a.py", "/r", Except.ok [⟨1, "await", (1, 0)⟩]⟩]
    [⟨"c.py", "/r", Except.ok [⟨1, "async", (2, 0)⟩]⟩]
    ⟨"b.py", "/r", Except.error (TokenizeError.syntaxError "bad")⟩
    (TokenizeError.syntaxError "bad") (by decide) rfl
  exact h.1

/-- A file tokenized without raising. -/
def successfullyTokenized (f : SourceFile) : Bool :=
  match f.tokens with
  | .ok _ => true
  | .error _ => false

/-- Claim C4: the final error count plus the number of scanned files that
tokenized successfully equals the number of walk entries whose name ends in
`.py`; and a file that tokenized successfully but has no matching token
changes neither the counters nor the report. -/
theorem error_count_partitions_scanned_files (files : List SourceFile) :
    (scanRun files).2.c_error +
        ((files.filter (fun f => endswith f.name ".py")).filter
          (fun f => successfullyTokenized f)).length =
      (files.filter (fun f => endswith f.name ".py")).length ∧
    (∀ (st : List String × Tally) (f : SourceFile) (toks : List TokenInfo),
      f.tokens = Except.ok toks → toks.filter isMatchTok = [] →
        scanFile st f = st) := by
  constructor
  · rw [scanRun_eq]
    show (runDelta files).c_error + _ = _
    induction files with
    | nil => rfl
    | cons f fs ih =>
        by_cases hpy : endswith f.name ".py"
        · cases hf : f.tokens with
          | error ex =>
              have hd : visitDelta f = ⟨1, 0, 0⟩ := by
                simp [visitDelta, hpy, fileDelta, hf]
              have hs : successfullyTokenized f = false := by
                simp [successfullyTokenized, hf]
              simp [runDelta, hd, Tally.add, List.filter_cons, hpy, hs,
                -List.filter_filter]
              omega
          | ok toks =>
              have hd : (visitDelta f).c_error = 0 := by
                simp [visitDelta, hpy, fileDelta, hf, tokensDelta_c_error]
              have hs : successfullyTokenized f = true := by
                simp [successfullyTokenized, hf]
              simp [runDelta, Tally.add, hd, List.filter_cons, hpy, hs,
                -List.filter_filter]
              omega
        · have hd : visitDelta f = ⟨0, 0, 0⟩ := by
            simp [visitDelta, hpy]
          simp [runDelta, hd, Tally.zero_add, List.filter_cons, hpy, ih,
            -List.filter_filter]
  · intro st f toks hok hempty
    rw [scanFile_eq]
    have hl : fileLines f = [] := by
      simp [fileLines, hok, hempty]
    have hd : fileDelta f = ⟨0, 0, 0⟩ := by
      simp [fileDelta, hok, tokensDelta_of_no_match toks hempty]
    rw [hl, hd, Tally.add_zero]
    simp

/-- Witness for C4: one clean match file, one failing file, one skipped
`.txt` file; the error count plus the one successful `.py` file equals the
two `.py` files, and a successful file without matching tokens leaves the
state unchanged. -/
theorem error_count_partitions_scanned_files_witness :
    (scanRun
        [⟨"a.py", "/r", Except.ok [⟨1, "await", (1, 0)⟩]⟩,
         ⟨"b.py", "/r", Except.error (TokenizeError.syntaxError "bad")⟩,
         ⟨"c.txt", "/r", Except.ok []⟩]).2.c_error +
        ((([⟨"a.py", "/r", Except.ok [⟨1, "await", (1, 0)⟩]⟩,
            ⟨"b.py", "/r", Except.error (TokenizeError.syntaxError "bad")⟩,
            ⟨"c.txt", "/r", Except.ok []⟩] : List SourceFile).filter
            (fun f => endswith f.name ".py")).filter
          (fun f => successfullyTokenized f)).length =
      (([⟨"a.py", "/r", Except.ok [⟨1, "await", (1, 0)⟩]⟩,
         ⟨"b.py", "/r", Except.error (TokenizeError.syntaxError "bad")⟩,
         ⟨"c.txt", "/r", Except.ok []⟩] : List SourceFile).filter
          (fun f => endswith f.name ".py")).length ∧
    scanFile ([], ⟨0, 0, 0⟩) ⟨"e.py", "/r", Except.ok [⟨1, "x", (1, 0)⟩]⟩ =
      ([], ⟨0, 0, 0⟩) :=
  ⟨(error_count_partitions_scanned_files
      [⟨"a.py", "/r", Except.ok [⟨1, "await", (1, 0)⟩]⟩,
       ⟨"b.py", "/r", Except.error (TokenizeError.syntaxError "bad")⟩,
       ⟨"c.txt", "/r", Except.ok []⟩]).1,
   (error_count_partitions_scanned_files []).2 ([], ⟨0, 0, 0⟩)
     ⟨"e.py", "/r", Except.ok [⟨1, "x", (1, 0)⟩]⟩ [⟨1, "x", (1, 0)⟩] rfl rfl⟩

/-- Summed tally contribution of a list of already-filtered files. -/
def filesDelta : List SourceFile → Tally
  | [] => ⟨0, 0, 0⟩
  | f :: fs => Tally.add (fileDelta f) (filesDelta fs)

theorem foldl_scanFile (files : List SourceFile) :
    ∀ st : List String × Tally,
      files.foldl scanFile st =
        (st.1 ++ files.flatMap fileLines, Tally.add st.2 (filesDelta files)) := by
  induction files with
  | nil => intro st; simp [filesDelta, Tally.add_zero]
  | cons f fs ih =>
      intro st
      rw [List.foldl_cons, scanFile_eq, ih]
      simp [filesDelta, Tally.add_assoc]

theorem flatMap_visitLines_eq (files : List SourceFile) :
    files.flatMap visitLines =
      (files.filter (fun f => endswith f.name ".py")).flatMap fileLines := by
  induction files with
  | nil => rfl
  | cons f fs ih =>
      by_cases hpy : endswith f.name ".py"
      · simp [visitLines, hpy, List.filter_cons, ih]
      · simp [visitLines, hpy, List.filter_cons, ih]

theorem runDelta_eq_filtered (files : List SourceFile) :
    runDelta files =
      filesDelta (files.filter (fun f => endswith f.name ".py")) := by
  induction files with
  | nil => rfl
  | cons f fs ih =>
      by_cases hpy : endswith f.name ".py"
      · simp [runDelta, visitDelta, hpy, List.filter_cons, ih, filesDelta]
      · simp [runDelta, visitDelta, hpy, List.filter_cons, ih, Tally.zero_add]

/-- Claim C6: the run processes exactly the walk entries whose name ends in
`.py` under a case-sensitive exact suffix match, and an entry with any
other name contributes nothing at all: deleting it from the walk leaves the
whole run unchanged. -/
theorem scanned_iff_py_suffix (files pre post : List SourceFile)
    (f : SourceFile) :
    scanRun files =
      (files.filter (fun g => endswith g.name ".py")).foldl scanFile
        ([], ⟨0, 0, 0⟩) ∧
    (endswith f.name ".py" = false →
      scanRun (pre ++ f :: post) = scanRun (pre ++ post)) := by
  constructor
  · rw [scanRun_eq, foldl_scanFile]
    simp [flatMap_visitLines_eq, runDelta_eq_filtered, Tally.zero_add]
  · intro hpy
    have hsplit : pre ++ f :: post = pre ++ [f] ++ post := by simp
    rw [hsplit, scanRun_eq, scanRun_eq]
    have hlines : visitLines f = [] := by simp [visitLines, hpy]
    have hdelta : visitDelta f = ⟨0, 0, 0⟩ := by simp [visitDelta, hpy]
    simp only [Prod.mk.injEq]
    constructor
    · simp [hlines]
    · simp [runDelta_append, runDelta, hdelta, Tally.zero_add, Tally.add_zero]

/-- Witness for C6: a `d.txt` entry whose tokens spell `await` is never
visited, so deleting it changes nothing about the run. -/
theorem scanned_iff_py_suffix_witness :
    scanRun
        [⟨"a.py", "/r", Except.ok [⟨1, "await", (1, 0)⟩]⟩,
         ⟨"d.txt", "/r", Except.ok
           [⟨1, "await", (1, 0)⟩, ⟨1, "await", (2, 0)⟩]⟩] =
      scanRun [⟨"a.py", "/r", Except.ok [⟨1, "await", (1, 0)⟩]⟩] := by
  have h := (scanned_iff_py_suffix []
    [⟨"a.py", "/r", Except.ok [⟨1, "await", (1, 0)⟩]⟩] []
    ⟨"d.txt", "/r", Except.ok
      [⟨1, "await", (1, 0)⟩, ⟨1, "await", (2, 0)⟩]⟩).2 rfl
  simpa using h

/-- Claim C7: the output is the directory echo, a blank line, the report
body, a blank line, and three labelled summary lines; every body line is
either a match line `category TAB filepath: position` with category
`await` or `async`, or a failure line `ERROR filepath message`; and for an
empty walk the body is empty but the summary is still printed. -/
theorem run_output_format (dir : String) (files : List SourceFile) :
    (runOutput dir files =
      ["Directory:  " ++ dir, ""] ++ (scanRun files).1 ++
        ["",
         "# of errors:  " ++ toString (scanRun files).2.c_error,
         "# of `await`:  " ++ toString (scanRun files).2.c_await,
         "# of `async`:  " ++ toString (scanRun files).2.c_async]) ∧
    (∀ line ∈ (scanRun files).1,
      (∃ f tok, f ∈ files ∧ endswith f.name ".py" = true ∧
        (∃ toks, f.tokens = Except.ok toks ∧ tok ∈ toks) ∧
        tok.type = NAME ∧ (tok.string = "await" ∨ tok.string = "async") ∧
        line = tok.string ++ "\t" ++ f.filename ++ ": " ++
          renderStart tok.start) ∨
      (∃ f ex, f ∈ files ∧ endswith f.name ".py" = true ∧
        f.tokens = Except.error ex ∧
        line = "ERROR " ++ f.filename ++ " " ++ ex.message)) ∧
    runOutput dir [] =
      ["Directory:  " ++ dir, "", "",
       "# of errors:  0", "# of `await`:  0", "# of `async`:  0"] := by
  refine ⟨rfl, ?_, rfl⟩
  intro line hline
  rw [scanRun_eq] at hline
  simp only [List.mem_flatMap] at hline
  obtain ⟨f, hf, hmem⟩ := hline
  unfold visitLines at hmem
  by_cases hpy : endswith f.name ".py"
  · rw [if_pos hpy] at hmem
    cases htok : f.tokens with
    | error ex =>
        right
        refine ⟨f, ex, hf, hpy, htok, ?_⟩
        unfold fileLines at hmem
        rw [htok] at hmem
        simpa [errorLine] using hmem
    | ok toks =>
        left
        unfold fileLines at hmem
        rw [htok] at hmem
        simp only [List.mem_map, List.mem_filter] at hmem
        obtain ⟨tok, ⟨htoks, hmatch⟩, hlineeq⟩ := hmem
        unfold isMatchTok at hmatch
        simp only [Bool.and_eq_true, Bool.or_eq_true, beq_iff_eq] at hmatch
        exact ⟨f, tok, hf, hpy, ⟨toks, htok, htoks⟩, hmatch.1, hmatch.2,
          by rw [← hlineeq]; rfl⟩
  · rw [if_neg hpy] at hmem
    simp at hmem

/-- Witness for C7: a two-entry walk whose body has one match line and one
ERROR line, each of the required shape. -/
theorem run_output_format_witness :
    ("await\t/r/a.py: (1, 0)" ∈
      (scanRun
        [⟨"a.py", "/r", Except.ok [⟨1, "await", (1, 0)⟩]⟩,
         ⟨"b.py", "/r", Except.error (TokenizeError.syntaxError "bad")⟩]).1) ∧
    ((∃ f tok, f ∈
        ([⟨"a.py", "/r", Except.ok [⟨1, "await", (1, 0)⟩]⟩,
          ⟨"b.py", "/r", Except.error (TokenizeError.syntaxError "bad")⟩] :
          List SourceFile) ∧
        endswith f.name ".py" = true ∧
        (∃ toks, f.tokens = Except.ok toks ∧ tok ∈ toks) ∧
        tok.type = NAME ∧ (tok.string = "await" ∨ tok.string = "async") ∧
        "await\t/r/a.py: (1, 0)" = tok.string ++ "\t" ++ f.filename ++ ": " ++
          renderStart tok.start) ∨
     (∃ f ex, f ∈
        ([⟨"a.py", "/r", Except.ok [⟨1, "await", (1, 0)⟩]⟩,
          ⟨"b.py", "/r", Except.error (TokenizeError.syntaxError "bad")⟩] :
          List SourceFile) ∧
        endswith f.name ".py" = true ∧
        f.tokens = Except.error ex ∧
        "await\t/r/a.py: (1, 0)" = "ERROR " ++ f.filename ++ " " ++
          ex.message)) := by
  have hmem : "await\t/r/a.py: (1, 0)" ∈
      (scanRun
        [⟨"a.py", "/r", Except.ok [⟨1, "await", (1, 0)⟩]⟩,
         ⟨"b.py", "/r", Except.error (TokenizeError.syntaxError "bad")⟩]).1 := by
    rw [show (scanRun
        [⟨"a.py", "/r", Except.ok [⟨1, "await", (1, 0)⟩]⟩,
         ⟨"b.py", "/r", Except.error (TokenizeError.syntaxError "bad")⟩]).1 =
      ["await\t/r/a.py: (1, 0)", "ERROR /r/b.py bad"] from rfl]
    exact List.mem_cons_self ..
  exact ⟨hmem,
    (run_output_format "/r"
      [⟨"a.py", "/r", Except.ok [⟨1, "await", (1, 0)⟩]⟩,
       ⟨"b.py", "/r", Except.error (TokenizeError.syntaxError "bad")⟩]).2.1
      "await\t/r/a.py: (1, 0)" hmem⟩

theorem Tally.eq_of_parts (a b : Tally) (h1 : a.c_error = b.c_error)
    (h2 : a.c_async = b.c_async) (h3 : a.c_await = b.c_await) : a = b := by
  cases a
  cases b
  simp_all

theorem runDelta_c_error_sum (files : List SourceFile) :
    (runDelta files).c_error =
      (files.map (fun f => (visitDelta f).c_error)).sum := by
  induction files with
  | nil => rfl
  | cons f fs ih => simp [runDelta, Tally.add, ih]

theorem runDelta_c_async_sum (files : List SourceFile) :
    (runDelta files).c_async =
      (files.map (fun f => (visitDelta f).c_async)).sum := by
  induction files with
  | nil => rfl
  | cons f fs ih => simp [runDelta, Tally.add, ih]

theorem runDelta_c_await_sum (files : List SourceFile) :
    (runDelta files).c_await =
      (files.map (fun f => (visitDelta f).c_await)).sum := by
  induction files with
  | nil => rfl
  | cons f fs ih => simp [runDelta, Tally.add, ih]

/-- Claim C8: the run is a deterministic function of the walked entries;
reordering the entries (traversal-order nondeterminism) leaves the three
final counters identical and permutes the report body accordingly. -/
theorem run_invariant_under_reordering (files₁ files₂ : List SourceFile)
    (h : files₁.Perm files₂) :
    (scanRun files₁).2 = (scanRun files₂).2 ∧
    (scanRun files₁).1.Perm (scanRun files₂).1 := by
  rw [scanRun_eq, scanRun_eq]
  constructor
  · refine Tally.eq_of_parts _ _ ?_ ?_ ?_
    · rw [runDelta_c_error_sum, runDelta_c_error_sum]
      exact (h.map (fun f => (visitDelta f).c_error)).sum_eq
    · rw [runDelta_c_async_sum, runDelta_c_async_sum]
      exact (h.map (fun f => (visitDelta f).c_async)).sum_eq
    · rw [runDelta_c_await_sum, runDelta_c_await_sum]
      exact (h.map (fun f => (visitDelta f).c_await)).sum_eq
  · exact h.flatMap_right visitLines

/-- Witness for C8: swapping two walk entries keeps the counters and
permutes the two report lines. -/
theorem run_invariant_under_reordering_witness :
    (scanRun
        [⟨"a.py", "/r", Except.ok [⟨1, "await", (1, 0)⟩]⟩,
         ⟨"b.py", "/r", Except.error (TokenizeError.syntaxError "bad")⟩]).2 =
      (scanRun
        [⟨"b.py", "/r", Except.error (TokenizeError.syntaxError "bad")⟩,
         ⟨"a.py", "/r", Except.ok [⟨1, "await", (1, 0)⟩]⟩]).2 ∧
    (scanRun
        [⟨"a.py", "/r", Except.ok [⟨1, "await", (1, 0)⟩]⟩,
         ⟨"b.py", "/r", Except.error (TokenizeError.syntaxError "bad")⟩]).1.Perm
      (scanRun
        [⟨"b.py", "/r", Except.error (TokenizeError.syntaxError "bad")⟩,
         ⟨"a.py", "/r", Except.ok [⟨1, "await", (1, 0)⟩]⟩]).1 :=
  run_invariant_under_reordering
    [⟨"a.py", "/r", Except.ok [⟨1, "await", (1, 0)⟩]⟩,
     ⟨"b.py", "/r", Except.error (TokenizeError.syntaxError "bad")⟩]
    [⟨"b.py", "/r", Except.error (TokenizeError.syntaxError "bad")⟩,
     ⟨"a.py", "/r", Except.ok [⟨1, "await", (1, 0)⟩]⟩]
    (List.Perm.swap
      (⟨"b.py", "/r", Except.error (TokenizeError.syntaxError "bad")⟩ :
        SourceFile)
      (⟨"a.py", "/r", Except.ok [⟨1, "await", (1, 0)⟩]⟩ : SourceFile) [])

/-- Modelled from the spec: the position convention of CPython `tokenize`
start positions, which the repository takes as given — line numbers are
1-based (columns are 0-based, and every natural number is a valid 0-based
column). The tokenizer itself is outside the repository; only this
convention on its produced tokens is modelled. -/
def cpythonStartConvention (tok : TokenInfo) : Prop :=
  1 ≤ tok.start.1

/-- Claim C9: the line printed for a matching token renders the token
start position exactly as the Python tuple `(line, column)`, and under the
CPython tokenize convention the rendered line number is 1-based. -/
theorem match_line_renders_start_tuple (filename : String)
    (st : List String × Tally) (tok : TokenInfo)
    (hconv : cpythonStartConvention tok)
    (hname : tok.type = NAME)
    (hs : tok.string = "await" ∨ tok.string = "async") :
    (scanToken filename st tok).1 =
      st.1 ++ [tok.string ++ "\t" ++ filename ++ ": " ++
        ("(" ++ toString tok.start.1 ++ ", " ++ toString tok.start.2 ++ ")")] ∧
    1 ≤ tok.start.1 := by
  have hm : isMatchTok tok = true := by
    unfold isMatchTok
    rcases hs with h | h <;> simp [hname, h]
  rw [scanToken_eq]
  exact ⟨by simp [tokLines, hm, matchLine, renderStart], hconv⟩

/-- Witness for C9: a NAME `await` token starting at line 3, column 4
prints the position as the tuple (3, 4). -/
theorem match_line_renders_start_tuple_witness :
    (scanToken "/r/a.py" ([], ⟨0, 0, 0⟩) ⟨1, "await", (3, 4)⟩).1 =
      ["await\t/r/a.py: (3, 4)"] ∧
    (1 : Nat) ≤ 3 := by
  have h := match_line_renders_start_tuple "/r/a.py" ([], ⟨0, 0, 0⟩)
    ⟨1, "await", (3, 4)⟩ (by simp [cpythonStartConvention]) rfl (Or.inl rfl)
  exact ⟨by rw [h.1]; rfl, h.2⟩

end AwaitPep
